import Mathlib

/-!
# OAT file reader (`src/oat_file.h`): method views, linking, container extent

Shallow embedding of the inline code of `art::OatFile` and its nested
classes.

* Addresses (`const byte*`, `const void*`, ...) are natural numbers below
  `2 ^ w`, where `w` is the pointer width of the target; pointer arithmetic
  is reduced modulo `2 ^ w`.  The null pointer is the address `0`.
* `uint32_t` values are natural numbers below `2 ^ 32`, `size_t` values are
  natural numbers below `2 ^ w`.
* The template parameter `T` of `GetOatPointer<T>` only names the static
  type of the returned pointer (`reinterpret_cast<T>`); it does not change
  the address, so the embedding has one `GetOatPointer`.
-/

set_option linter.dupNamespace false

namespace art

/-- The null pointer constant `NULL`. -/
def NULL : Nat := 0

/-! ## `OatFile::OatMethod` -/

/-- Data members of `OatFile::OatMethod` (oat_file.h, lines 102-110). -/
structure OatMethod where
  base_ : Nat
  code_offset_ : Nat
  frame_size_in_bytes_ : Nat
  core_spill_mask_ : Nat
  fp_spill_mask_ : Nat
  mapping_table_offset_ : Nat
  vmap_table_offset_ : Nat
  invoke_stub_offset_ : Nat
  deriving DecidableEq, Repr

namespace OatMethod

/-- The machine types of the data members: `base_` is a pointer,
`frame_size_in_bytes_` a `size_t`, the other six are `uint32_t`. -/
def WellTyped (w : Nat) (m : OatMethod) : Prop :=
  m.base_ < 2 ^ w ∧ m.code_offset_ < 2 ^ 32 ∧ m.frame_size_in_bytes_ < 2 ^ w ∧
  m.core_spill_mask_ < 2 ^ 32 ∧ m.fp_spill_mask_ < 2 ^ 32 ∧
  m.mapping_table_offset_ < 2 ^ 32 ∧ m.vmap_table_offset_ < 2 ^ 32 ∧
  m.invoke_stub_offset_ < 2 ^ 32

instance (w : Nat) (m : OatMethod) : Decidable (WellTyped w m) := by
  unfold WellTyped; infer_instance

/-- Source: `uint32_t GetCodeOffset() const`. -/
def GetCodeOffset (m : OatMethod) : Nat := m.code_offset_

/-- Source: `size_t GetFrameSizeInBytes() const`. -/
def GetFrameSizeInBytes (m : OatMethod) : Nat := m.frame_size_in_bytes_

/-- Source: `uint32_t GetCoreSpillMask() const`. -/
def GetCoreSpillMask (m : OatMethod) : Nat := m.core_spill_mask_

/-- Source: `uint32_t GetFpSpillMask() const`. -/
def GetFpSpillMask (m : OatMethod) : Nat := m.fp_spill_mask_

/-- Source: `uint32_t GetMappingTableOffset() const`. -/
def GetMappingTableOffset (m : OatMethod) : Nat := m.mapping_table_offset_

/-- Source: `uint32_t GetVmapTableOffset() const`. -/
def GetVmapTableOffset (m : OatMethod) : Nat := m.vmap_table_offset_

/-- Source: `uint32_t GetInvokeStubOffset() const`. -/
def GetInvokeStubOffset (m : OatMethod) : Nat := m.invoke_stub_offset_

/-- Source: `template<class T> T GetOatPointer(uint32_t offset) const`:
`if (offset == 0) return NULL; return reinterpret_cast<T>(base_ + offset);`
with the pointer sum taken on `w`-bit addresses. -/
def GetOatPointer (w : Nat) (m : OatMethod) (offset : Nat) : Nat :=
  if offset = 0 then NULL else (m.base_ + offset) % 2 ^ w

/-- Source: `const void* GetCode() const`. -/
def GetCode (w : Nat) (m : OatMethod) : Nat := m.GetOatPointer w m.code_offset_

/-- Source: `const uint32_t* GetMappingTable() const`. -/
def GetMappingTable (w : Nat) (m : OatMethod) : Nat :=
  m.GetOatPointer w m.mapping_table_offset_

/-- Source: `const uint16_t* GetVmapTable() const`. -/
def GetVmapTable (w : Nat) (m : OatMethod) : Nat :=
  m.GetOatPointer w m.vmap_table_offset_

/-- Source: `const Method::InvokeStub* GetInvokeStub() const`. -/
def GetInvokeStub (w : Nat) (m : OatMethod) : Nat :=
  m.GetOatPointer w m.invoke_stub_offset_

end OatMethod

/-- Modelled from the spec: the body of the constructor
`OatMethod::OatMethod(base, code_offset, ...)` is not part of the header; the
spec says the seven fields are "copied by value at construction" next to the
base pointer. -/
def OatMethod.OatMethod (base code_offset frame_size_in_bytes core_spill_mask fp_spill_mask
    mapping_table_offset vmap_table_offset invoke_stub_offset : Nat) : OatMethod :=
  ⟨base, code_offset, frame_size_in_bytes, core_spill_mask, fp_spill_mask,
    mapping_table_offset, vmap_table_offset, invoke_stub_offset⟩

/-- The accessors of a method view: the seven field getters and the four
pointer accessors (oat_file.h, lines 46-79). -/
inductive Accessor where
  | GetCodeOffset
  | GetFrameSizeInBytes
  | GetCoreSpillMask
  | GetFpSpillMask
  | GetMappingTableOffset
  | GetVmapTableOffset
  | GetInvokeStubOffset
  | GetCode
  | GetMappingTable
  | GetVmapTable
  | GetInvokeStub
  deriving DecidableEq, Repr

/-- Calling an accessor on a view: the returned value together with the view
as it is after the call.  Every accessor is a `const` member function whose
body is a single `return`, so no data member is assigned. -/
def Accessor.call (w : Nat) (a : Accessor) (m : OatMethod) : Nat × OatMethod :=
  match a with
  | .GetCodeOffset => (m.GetCodeOffset, m)
  | .GetFrameSizeInBytes => (m.GetFrameSizeInBytes, m)
  | .GetCoreSpillMask => (m.GetCoreSpillMask, m)
  | .GetFpSpillMask => (m.GetFpSpillMask, m)
  | .GetMappingTableOffset => (m.GetMappingTableOffset, m)
  | .GetVmapTableOffset => (m.GetVmapTableOffset, m)
  | .GetInvokeStubOffset => (m.GetInvokeStubOffset, m)
  | .GetCode => (m.GetCode w, m)
  | .GetMappingTable => (m.GetMappingTable w, m)
  | .GetVmapTable => (m.GetVmapTable w, m)
  | .GetInvokeStub => (m.GetInvokeStub w, m)

/-- Number of values of the declared return type of an accessor: `uint32_t`
for six getters, `size_t` for the frame size, a pointer for the other four. -/
def Accessor.range (w : Nat) (a : Accessor) : Nat :=
  match a with
  | .GetCodeOffset => 2 ^ 32
  | .GetFrameSizeInBytes => 2 ^ w
  | .GetCoreSpillMask => 2 ^ 32
  | .GetFpSpillMask => 2 ^ 32
  | .GetMappingTableOffset => 2 ^ 32
  | .GetVmapTableOffset => 2 ^ 32
  | .GetInvokeStubOffset => 2 ^ 32
  | .GetCode => 2 ^ w
  | .GetMappingTable => 2 ^ w
  | .GetVmapTable => 2 ^ w
  | .GetInvokeStub => 2 ^ w

/-- The offset field a pointer accessor reads; `none` for a field getter. -/
def Accessor.offsetOf (a : Accessor) (m : OatMethod) : Option Nat :=
  match a with
  | .GetCode => some m.code_offset_
  | .GetMappingTable => some m.mapping_table_offset_
  | .GetVmapTable => some m.vmap_table_offset_
  | .GetInvokeStub => some m.invoke_stub_offset_
  | _ => none

/-! ## Linking into a runtime method record -/

/-- Modelled from the spec: the runtime method record (`class Method` of
object.h, which is not among the sources).  It has one slot for each of the
seven items the linking operations write; `other_` stands for the rest of the
record. -/
structure Method where
  code_ : Nat
  frame_size_in_bytes_ : Nat
  core_spill_mask_ : Nat
  fp_spill_mask_ : Nat
  mapping_table_ : Nat
  vmap_table_ : Nat
  invoke_stub_ : Nat
  other_ : List Nat
  deriving DecidableEq, Repr

/-- Modelled from the spec: `LinkMethodPointers` is only declared in the
header.  Spec, LinkAbsolute: "writes the four materialized addresses above
(valid only under the current mapping base) plus frame size and spill masks
into a runtime method record"; the materialized addresses are the results of
`GetCode`, `GetMappingTable`, `GetVmapTable` and `GetInvokeStub`. -/
def OatMethod.LinkMethodPointers (w : Nat) (m : art.OatMethod) (method : Method) : Method :=
  ⟨m.GetCode w, m.frame_size_in_bytes_, m.core_spill_mask_, m.fp_spill_mask_,
    m.GetMappingTable w, m.GetVmapTable w, m.GetInvokeStub w, method.other_⟩

/-- Modelled from the spec: `LinkMethodOffsets` is only declared in the
header.  Spec, LinkRelative: "writes the raw offsets themselves (not
materialized addresses) plus the same metadata". -/
def OatMethod.LinkMethodOffsets (m : art.OatMethod) (method : Method) : Method :=
  ⟨m.GetCodeOffset, m.frame_size_in_bytes_, m.core_spill_mask_, m.fp_spill_mask_,
    m.GetMappingTableOffset, m.GetVmapTableOffset, m.GetInvokeStubOffset, method.other_⟩

/-! ## `OatFile::OatDexFile` and the container -/

/-- Data members of `OatFile::OatDexFile` (oat_file.h, lines 159-163); the
back-reference `oat_file_` to the owning container is left out. -/
structure OatDexFile where
  dex_file_location_ : String
  dex_file_checksum_ : Nat
  dex_file_pointer_ : Nat
  oat_class_offsets_pointer_ : Nat
  deriving DecidableEq, Repr

/-- Source: `const std::string& GetDexFileLocation() const`. -/
def OatDexFile.GetDexFileLocation (d : OatDexFile) : String := d.dex_file_location_

/-- Source: `uint32_t GetDexFileChecksum() const`. -/
def OatDexFile.GetDexFileChecksum (d : OatDexFile) : Nat := d.dex_file_checksum_

/-- Source: `typedef std::map<std::string, const OatDexFile*> Table;` as an association
list from location to the descriptor the stored pointer refers to. -/
abbrev Table := List (String × OatDexFile)

/-- The locations that are keys of the index. -/
def Table.keys (t : Table) : List String := t.map Prod.fst

/-- Lookup of a key in the index (`std::map::find`): the entry stored under the
key, `none` on a miss. -/
def Table.find (t : Table) (key : String) : Option OatDexFile :=
  match t with
  | [] => none
  | (k, d) :: rest => if k = key then some d else Table.find rest key

/-- Modelled from the spec: the memory map (`class MemMap` of mem_map.h, not
among the sources) "exposes a contiguous readable byte range"; it is given by
the address of its first byte and the address one past its last byte. -/
structure MemMap where
  base : Nat
  limit : Nat
  deriving DecidableEq, Repr

/-- Data members of `OatFile` (oat_file.h, lines 187-193). -/
structure OatFile where
  location_ : String
  mem_map_ : MemMap
  oat_dex_files_ : Table
  deriving DecidableEq, Repr

namespace OatFile

/-- Source: `const std::string& GetLocation() const`. -/
def GetLocation (f : OatFile) : String := f.location_

/-- Modelled from the spec: `GetBase` is only declared in the header; it
reports the start of the mapped extent. -/
def GetBase (f : OatFile) : Nat := f.mem_map_.base

/-- Modelled from the spec: `GetLimit` is only declared in the header; it
reports the end of the mapped extent. -/
def GetLimit (f : OatFile) : Nat := f.mem_map_.limit

/-- Source: `size_t GetSize() const { return GetLimit() - GetBase(); }`: the pointer
difference, converted to the unsigned `w`-bit type `size_t`. -/
def GetSize (w : Nat) (f : OatFile) : Nat :=
  (((f.GetLimit : Int) - (f.GetBase : Int)) % (2 : Int) ^ w).toNat

/-- Modelled from the spec: `GetOatDexFile` is only declared in the header.
Spec, Lookup: "index miss returns null; the flag only controls whether a
diagnostic is emitted".  The result is the descriptor found (`none` for null)
and whether a diagnostic was emitted. -/
def GetOatDexFile (f : OatFile) (dex_file_location : String)
    (warn_if_not_found : Bool) : Option OatDexFile × Bool :=
  match f.oat_dex_files_.find dex_file_location with
  | some d => (some d, false)
  | none => (none, warn_if_not_found)

end OatFile

/-! ## Shared lemmas on `GetOatPointer` -/

theorem getOatPointer_zero (w : Nat) (m : OatMethod) :
    m.GetOatPointer w 0 = NULL := by
  simp [OatMethod.GetOatPointer]

theorem getOatPointer_of_ne_zero (w : Nat) (m : OatMethod) {k : Nat} (hk : k ≠ 0) :
    m.GetOatPointer w k = (m.base_ + k) % 2 ^ w := by
  simp [OatMethod.GetOatPointer, hk]

theorem getOatPointer_lt (w : Nat) (m : OatMethod) (k : Nat) :
    m.GetOatPointer w k < 2 ^ w := by
  unfold OatMethod.GetOatPointer NULL
  split
  · exact Nat.two_pow_pos w
  · exact Nat.mod_lt _ (Nat.two_pow_pos w)

theorem getOatPointer_eq_null_iff (w : Nat) (m : OatMethod) (k : Nat) :
    m.GetOatPointer w k = NULL ↔ k = 0 ∨ (m.base_ + k) % 2 ^ w = 0 := by
  unfold OatMethod.GetOatPointer NULL
  by_cases hk : k = 0
  · simp [hk]
  · simp [hk]

theorem getOatPointer_no_wrap (w : Nat) (m : OatMethod) {k : Nat} (hk : k ≠ 0)
    (h : m.base_ + k < 2 ^ w) : m.GetOatPointer w k = m.base_ + k := by
  rw [getOatPointer_of_ne_zero w m hk, Nat.mod_eq_of_lt h]

theorem getOatPointer_sub_base (w : Nat) (m : OatMethod) {k : Nat} (hk : k ≠ 0)
    (hlt : k < 2 ^ w) :
    ((m.GetOatPointer w k : Int) - (m.base_ : Int)) % (2 : Int) ^ w = (k : Int) := by
  rw [getOatPointer_of_ne_zero w m hk]
  push_cast
  rw [Int.sub_emod, Int.emod_emod, ← Int.sub_emod]
  have hk' : ((m.base_ : Int) + k - m.base_) = k := by ring
  rw [hk']
  apply Int.emod_eq_of_lt (by positivity)
  exact_mod_cast hlt

theorem getOatPointer_injective (w : Nat) (m : OatMethod) {k₁ k₂ : Nat}
    (h₁ : k₁ ≠ 0) (h₂ : k₂ ≠ 0) (hlt₁ : k₁ < 2 ^ w) (hlt₂ : k₂ < 2 ^ w)
    (h : m.GetOatPointer w k₁ = m.GetOatPointer w k₂) : k₁ = k₂ := by
  rw [getOatPointer_of_ne_zero w m h₁, getOatPointer_of_ne_zero w m h₂] at h
  have hmod : k₁ ≡ k₂ [MOD 2 ^ w] := Nat.ModEq.add_left_cancel' m.base_ h
  exact Nat.ModEq.eq_of_lt_of_lt hmod hlt₁ hlt₂

theorem getOatPointer_ne_base (w : Nat) (m : OatMethod) (hb : m.base_ ≠ NULL)
    {k : Nat} (hlt : k < 2 ^ w) : m.GetOatPointer w k ≠ m.base_ := by
  intro h
  by_cases hk : k = 0
  · subst hk
    rw [getOatPointer_zero] at h
    exact hb h.symm
  · have hsub := getOatPointer_sub_base w m hk hlt
    rw [h, sub_self, Int.zero_emod] at hsub
    exact hk (by exact_mod_cast hsub.symm)

theorem two_pow_32_le {w : Nat} (hw : 32 ≤ w) : 2 ^ 32 ≤ 2 ^ w :=
  Nat.pow_le_pow_right (by decide) hw

/-! ## Shared lemmas on `GetSize` -/

theorem getSize_cast (w : Nat) (f : OatFile) :
    (f.GetSize w : Int) = ((f.GetLimit : Int) - (f.GetBase : Int)) % (2 : Int) ^ w := by
  unfold OatFile.GetSize
  exact Int.toNat_of_nonneg (Int.emod_nonneg _ (by positivity))

theorem getSize_of_le (w : Nat) (f : OatFile) (hle : f.GetBase ≤ f.GetLimit)
    (hlim : f.GetLimit < 2 ^ w) : f.GetSize w = f.GetLimit - f.GetBase := by
  have hcast := getSize_cast w f
  have hl : (f.GetLimit : Int) < (2 : Int) ^ w := by exact_mod_cast hlim
  rw [Int.emod_eq_of_lt (by omega) (by omega)] at hcast
  omega

theorem getOatPointer_in_extent_iff (w : Nat) (f : OatFile) (m : OatMethod)
    (hbase : m.base_ = f.GetBase) (hle : f.GetBase ≤ f.GetLimit)
    (hlim : f.GetLimit < 2 ^ w) {k : Nat} (hk : k ≠ 0) (hlt : k < 2 ^ w) :
    (f.GetBase ≤ m.GetOatPointer w k ∧ m.GetOatPointer w k < f.GetLimit) ↔
      k < f.GetSize w := by
  rw [getSize_of_le w f hle hlim, getOatPointer_of_ne_zero w m hk, hbase]
  by_cases hsum : f.GetBase + k < 2 ^ w
  · rw [Nat.mod_eq_of_lt hsum]
    omega
  · have hge : 2 ^ w ≤ f.GetBase + k := Nat.le_of_not_lt hsum
    have hlt2 : f.GetBase + k - 2 ^ w < 2 ^ w := by omega
    rw [Nat.mod_eq_sub_mod hge, Nat.mod_eq_of_lt hlt2]
    omega

/-! ## Shared lemmas on the location index -/

theorem table_find_eq_none_iff (t : Table) (key : String) :
    t.find key = none ↔ key ∉ t.keys := by
  induction t with
  | nil => simp [Table.find, Table.keys]
  | cons e rest ih =>
    obtain ⟨k, d⟩ := e
    by_cases hk : k = key
    · simp [Table.find, Table.keys, hk]
    · have hk' : ¬ key = k := fun h => hk h.symm
      simp only [Table.find, hk, if_false, ih]
      simp [Table.keys, hk']

theorem table_find_mem (t : Table) (key : String) (d : OatDexFile)
    (h : t.find key = some d) : (key, d) ∈ t := by
  induction t with
  | nil => simp [Table.find] at h
  | cons e rest ih =>
    obtain ⟨k, d'⟩ := e
    by_cases hk : k = key
    · simp [Table.find, hk] at h
      simp [hk, h]
    · simp only [Table.find, hk, if_false] at h
      exact List.mem_cons_of_mem _ (ih h)

/-! ## Pointer accessors: null results and addresses -/

/-- C1, counterexample.  On a 32-bit target the view with base `0xFFFFF000` and
code offset `0x1000` is well typed and its code offset is not 0, yet `GetCode`
returns null: `base_ + offset` wraps around to the address 0. -/
theorem getCode_null_with_nonzero_offset :
    OatMethod.WellTyped 32 (OatMethod.mk 4294963200 4096 0 0 0 0 0 0) ∧
    (OatMethod.mk 4294963200 4096 0 0 0 0 0 0).GetCode 32 = NULL ∧
    (OatMethod.mk 4294963200 4096 0 0 0 0 0 0).code_offset_ ≠ 0 ∧
    ¬ ((OatMethod.mk 4294963200 4096 0 0 0 0 0 0).GetCode 32 = NULL ↔
        (OatMethod.mk 4294963200 4096 0 0 0 0 0 0).code_offset_ = 0) := by
  decide

/-- C1, amended.  Each of `GetCode`, `GetMappingTable`, `GetVmapTable` and
`GetInvokeStub` returns null if and only if its offset field is 0 or the sum
of base and offset is the address 0 modulo `2 ^ w`; so whenever base plus
offset stays below `2 ^ w`, it returns null if and only if the offset field
is 0. -/
theorem pointer_accessor_null_iff (w : Nat) (m : OatMethod) :
    ((m.GetCode w = NULL ↔
        m.code_offset_ = 0 ∨ (m.base_ + m.code_offset_) % 2 ^ w = 0) ∧
      (m.GetMappingTable w = NULL ↔
        m.mapping_table_offset_ = 0 ∨ (m.base_ + m.mapping_table_offset_) % 2 ^ w = 0) ∧
      (m.GetVmapTable w = NULL ↔
        m.vmap_table_offset_ = 0 ∨ (m.base_ + m.vmap_table_offset_) % 2 ^ w = 0) ∧
      (m.GetInvokeStub w = NULL ↔
        m.invoke_stub_offset_ = 0 ∨ (m.base_ + m.invoke_stub_offset_) % 2 ^ w = 0)) ∧
    ((m.base_ + m.code_offset_ < 2 ^ w → (m.GetCode w = NULL ↔ m.code_offset_ = 0)) ∧
      (m.base_ + m.mapping_table_offset_ < 2 ^ w →
        (m.GetMappingTable w = NULL ↔ m.mapping_table_offset_ = 0)) ∧
      (m.base_ + m.vmap_table_offset_ < 2 ^ w →
        (m.GetVmapTable w = NULL ↔ m.vmap_table_offset_ = 0)) ∧
      (m.base_ + m.invoke_stub_offset_ < 2 ^ w →
        (m.GetInvokeStub w = NULL ↔ m.invoke_stub_offset_ = 0))) := by
  have key : ∀ k : Nat, m.base_ + k < 2 ^ w → (m.GetOatPointer w k = NULL ↔ k = 0) := by
    intro k hk
    rw [getOatPointer_eq_null_iff, Nat.mod_eq_of_lt hk]
    omega
  exact ⟨⟨getOatPointer_eq_null_iff w m _, getOatPointer_eq_null_iff w m _,
      getOatPointer_eq_null_iff w m _, getOatPointer_eq_null_iff w m _⟩,
    key _, key _, key _, key _⟩

/-- C1, witness: a view at base `0x1000` with code at offset `0x40` and no
mapping table, on a 32-bit target. -/
theorem pointer_accessor_null_iff_witness :
    (4096 + 64 < 2 ^ 32 ∧ 4096 + 0 < 2 ^ 32) ∧
    ((OatMethod.mk 4096 64 16 0 0 0 0 0).GetCode 32 = NULL ↔ (64 : Nat) = 0) ∧
    ((OatMethod.mk 4096 64 16 0 0 0 0 0).GetMappingTable 32 = NULL ↔ (0 : Nat) = 0) :=
  ⟨by decide,
    (pointer_accessor_null_iff 32 (OatMethod.mk 4096 64 16 0 0 0 0 0)).2.1 (by decide),
    (pointer_accessor_null_iff 32 (OatMethod.mk 4096 64 16 0 0 0 0 0)).2.2.1
      (by decide)⟩

/-- C2.  For a view with base `B`: an accessor whose offset field is 0 returns
null, and one whose offset field is `K > 0` returns the address `B + K`, the
pointer sum on `w`-bit addresses, which is the number `B + K` whenever that is
below `2 ^ w`.  This holds for `GetMappingTable`, `GetCode`, `GetVmapTable`
and `GetInvokeStub`, each with its own offset field. -/
theorem pointer_accessor_base_plus_offset (w : Nat) (m : OatMethod) :
    ((m.mapping_table_offset_ = 0 → m.GetMappingTable w = NULL) ∧
      (0 < m.mapping_table_offset_ →
        m.GetMappingTable w = (m.base_ + m.mapping_table_offset_) % 2 ^ w) ∧
      (0 < m.mapping_table_offset_ → m.base_ + m.mapping_table_offset_ < 2 ^ w →
        m.GetMappingTable w = m.base_ + m.mapping_table_offset_)) ∧
    ((m.code_offset_ = 0 → m.GetCode w = NULL) ∧
      (0 < m.code_offset_ → m.GetCode w = (m.base_ + m.code_offset_) % 2 ^ w) ∧
      (0 < m.code_offset_ → m.base_ + m.code_offset_ < 2 ^ w →
        m.GetCode w = m.base_ + m.code_offset_)) ∧
    ((m.vmap_table_offset_ = 0 → m.GetVmapTable w = NULL) ∧
      (0 < m.vmap_table_offset_ →
        m.GetVmapTable w = (m.base_ + m.vmap_table_offset_) % 2 ^ w) ∧
      (0 < m.vmap_table_offset_ → m.base_ + m.vmap_table_offset_ < 2 ^ w →
        m.GetVmapTable w = m.base_ + m.vmap_table_offset_)) ∧
    ((m.invoke_stub_offset_ = 0 → m.GetInvokeStub w = NULL) ∧
      (0 < m.invoke_stub_offset_ →
        m.GetInvokeStub w = (m.base_ + m.invoke_stub_offset_) % 2 ^ w) ∧
      (0 < m.invoke_stub_offset_ → m.base_ + m.invoke_stub_offset_ < 2 ^ w →
        m.GetInvokeStub w = m.base_ + m.invoke_stub_offset_)) := by
  have key : ∀ k : Nat, (k = 0 → m.GetOatPointer w k = NULL) ∧
      (0 < k → m.GetOatPointer w k = (m.base_ + k) % 2 ^ w) ∧
      (0 < k → m.base_ + k < 2 ^ w → m.GetOatPointer w k = m.base_ + k) := by
    intro k
    refine ⟨fun h => ?_, fun h => ?_, fun h hlt => ?_⟩
    · rw [h]; exact getOatPointer_zero w m
    · exact getOatPointer_of_ne_zero w m (Nat.pos_iff_ne_zero.mp h)
    · exact getOatPointer_no_wrap w m (Nat.pos_iff_ne_zero.mp h) hlt
  exact ⟨key _, key _, key _, key _⟩

/-- C2, witness: base `0x1000`, mapping table at offset `0x80`, no vmap table. -/
theorem pointer_accessor_base_plus_offset_witness :
    (0 < 128 ∧ 4096 + 128 < 2 ^ 32) ∧
    (OatMethod.mk 4096 64 16 0 0 128 0 0).GetMappingTable 32 = 4096 + 128 ∧
    (OatMethod.mk 4096 64 16 0 0 128 0 0).GetVmapTable 32 = NULL :=
  ⟨by decide,
    (pointer_accessor_base_plus_offset 32 (OatMethod.mk 4096 64 16 0 0 128 0 0)).1.2.2
      (by decide) (by decide),
    (pointer_accessor_base_plus_offset 32 (OatMethod.mk 4096 64 16 0 0 128 0 0)).2.2.1.1
      rfl⟩

/-! ## Linking -/

/-- C3.  For every method view with base `B` and every target record, and for
each of the code, mapping-table, vmap-table and invoke-stub fields with a
present offset `K > 0`: `LinkMethodPointers` stores the absolute pointer
`B + K`, the pointer sum on `w`-bit addresses, which is the number `B + K`
whenever that is below `2 ^ w`; `LinkMethodOffsets` applied to the same view
stores the raw offset `K` itself; both store the frame size and the two spill
masks of the view. -/
theorem link_pointers_and_offsets (w : Nat) (m : OatMethod) (method : Method) :
    ((0 < m.code_offset_ →
        (m.LinkMethodPointers w method).code_ = (m.base_ + m.code_offset_) % 2 ^ w) ∧
      (0 < m.mapping_table_offset_ →
        (m.LinkMethodPointers w method).mapping_table_ =
          (m.base_ + m.mapping_table_offset_) % 2 ^ w) ∧
      (0 < m.vmap_table_offset_ →
        (m.LinkMethodPointers w method).vmap_table_ =
          (m.base_ + m.vmap_table_offset_) % 2 ^ w) ∧
      (0 < m.invoke_stub_offset_ →
        (m.LinkMethodPointers w method).invoke_stub_ =
          (m.base_ + m.invoke_stub_offset_) % 2 ^ w)) ∧
    ((0 < m.code_offset_ → m.base_ + m.code_offset_ < 2 ^ w →
        (m.LinkMethodPointers w method).code_ = m.base_ + m.code_offset_) ∧
      (0 < m.mapping_table_offset_ → m.base_ + m.mapping_table_offset_ < 2 ^ w →
        (m.LinkMethodPointers w method).mapping_table_ =
          m.base_ + m.mapping_table_offset_) ∧
      (0 < m.vmap_table_offset_ → m.base_ + m.vmap_table_offset_ < 2 ^ w →
        (m.LinkMethodPointers w method).vmap_table_ = m.base_ + m.vmap_table_offset_) ∧
      (0 < m.invoke_stub_offset_ → m.base_ + m.invoke_stub_offset_ < 2 ^ w →
        (m.LinkMethodPointers w method).invoke_stub_ =
          m.base_ + m.invoke_stub_offset_)) ∧
    ((m.LinkMethodOffsets method).code_ = m.code_offset_ ∧
      (m.LinkMethodOffsets method).mapping_table_ = m.mapping_table_offset_ ∧
      (m.LinkMethodOffsets method).vmap_table_ = m.vmap_table_offset_ ∧
      (m.LinkMethodOffsets method).invoke_stub_ = m.invoke_stub_offset_) ∧
    ((m.LinkMethodPointers w method).frame_size_in_bytes_ = m.frame_size_in_bytes_ ∧
      (m.LinkMethodOffsets method).frame_size_in_bytes_ = m.frame_size_in_bytes_ ∧
      (m.LinkMethodPointers w method).core_spill_mask_ = m.core_spill_mask_ ∧
      (m.LinkMethodOffsets method).core_spill_mask_ = m.core_spill_mask_ ∧
      (m.LinkMethodPointers w method).fp_spill_mask_ = m.fp_spill_mask_ ∧
      (m.LinkMethodOffsets method).fp_spill_mask_ = m.fp_spill_mask_) := by
  have key : ∀ k : Nat, 0 < k → m.GetOatPointer w k = (m.base_ + k) % 2 ^ w :=
    fun k h => getOatPointer_of_ne_zero w m (Nat.pos_iff_ne_zero.mp h)
  have key2 : ∀ k : Nat, 0 < k → m.base_ + k < 2 ^ w →
      m.GetOatPointer w k = m.base_ + k :=
    fun k h hlt => getOatPointer_no_wrap w m (Nat.pos_iff_ne_zero.mp h) hlt
  exact ⟨⟨key _, key _, key _, key _⟩, ⟨key2 _, key2 _, key2 _, key2 _⟩,
    ⟨rfl, rfl, rfl, rfl⟩, rfl, rfl, rfl, rfl, rfl, rfl⟩

/-- C3, witness: the view at base `0x1000` with code at offset `0x40` and
mapping table at offset `0x80`, linked into an empty record on a 32-bit
target: the code slot gets `0x1040` when linking pointers and `0x40` when
linking offsets. -/
theorem link_pointers_and_offsets_witness :
    (0 < 64 ∧ 4096 + 64 < 2 ^ 32 ∧ 0 < 128) ∧
    ((OatMethod.mk 4096 64 16 3 5 128 0 256).LinkMethodPointers 32
        (Method.mk 0 0 0 0 0 0 0 [])).code_ = 4096 + 64 ∧
    ((OatMethod.mk 4096 64 16 3 5 128 0 256).LinkMethodPointers 32
        (Method.mk 0 0 0 0 0 0 0 [])).mapping_table_ = (4096 + 128) % 2 ^ 32 ∧
    ((OatMethod.mk 4096 64 16 3 5 128 0 256).LinkMethodOffsets
        (Method.mk 0 0 0 0 0 0 0 [])).code_ = 64 :=
  ⟨by decide,
    (link_pointers_and_offsets 32 (OatMethod.mk 4096 64 16 3 5 128 0 256)
      (Method.mk 0 0 0 0 0 0 0 [])).2.1.1 (by decide) (by decide),
    (link_pointers_and_offsets 32 (OatMethod.mk 4096 64 16 3 5 128 0 256)
      (Method.mk 0 0 0 0 0 0 0 [])).1.2.1 (by decide),
    (link_pointers_and_offsets 32 (OatMethod.mk 4096 64 16 3 5 128 0 256)
      (Method.mk 0 0 0 0 0 0 0 [])).2.2.1.1⟩

/-! ## The location index -/

/-- C4.  For every container and every location `L`: when `L` is a key of the
location index, `GetOatDexFile` returns a non-null descriptor, one that the
index holds under `L`; when `L` is not a key, it returns null.  The result
does not depend on the `warn_if_not_found` flag. -/
theorem getOatDexFile_found_iff_key (f : OatFile) (L : String) (warn : Bool) :
    (L ∈ f.oat_dex_files_.keys →
      ∃ d, (f.GetOatDexFile L warn).1 = some d ∧ (L, d) ∈ f.oat_dex_files_) ∧
    (L ∉ f.oat_dex_files_.keys → (f.GetOatDexFile L warn).1 = none) ∧
    (f.GetOatDexFile L warn).1 = (f.GetOatDexFile L (!warn)).1 := by
  have hres : ∀ b : Bool, (f.GetOatDexFile L b).1 = f.oat_dex_files_.find L := by
    intro b
    unfold OatFile.GetOatDexFile
    cases f.oat_dex_files_.find L <;> rfl
  refine ⟨fun hmem => ?_, fun hnot => ?_, ?_⟩
  · cases hfind : f.oat_dex_files_.find L with
    | none => exact absurd hmem ((table_find_eq_none_iff _ _).mp hfind)
    | some d => exact ⟨d, by rw [hres, hfind], table_find_mem _ _ _ hfind⟩
  · rw [hres]
    exact (table_find_eq_none_iff _ _).mpr hnot
  · rw [hres, hres]

/-- C4, witness: a container indexing `core.dex` and `ext.dex`; the first is
found, `boot.dex` is not. -/
theorem getOatDexFile_found_iff_key_witness :
    ("core.dex" ∈ Table.keys [("core.dex", OatDexFile.mk "core.dex" 7 4160 4200),
        ("ext.dex", OatDexFile.mk "ext.dex" 9 5000 5040)] ∧
      "boot.dex" ∉ Table.keys [("core.dex", OatDexFile.mk "core.dex" 7 4160 4200),
        ("ext.dex", OatDexFile.mk "ext.dex" 9 5000 5040)]) ∧
    (∃ d, ((OatFile.mk "x.oat" (MemMap.mk 4096 8192)
        [("core.dex", OatDexFile.mk "core.dex" 7 4160 4200),
          ("ext.dex", OatDexFile.mk "ext.dex" 9 5000 5040)]).GetOatDexFile
          "core.dex" true).1 = some d ∧
      ("core.dex", d) ∈ [("core.dex", OatDexFile.mk "core.dex" 7 4160 4200),
          ("ext.dex", OatDexFile.mk "ext.dex" 9 5000 5040)]) ∧
    ((OatFile.mk "x.oat" (MemMap.mk 4096 8192)
        [("core.dex", OatDexFile.mk "core.dex" 7 4160 4200),
          ("ext.dex", OatDexFile.mk "ext.dex" 9 5000 5040)]).GetOatDexFile
          "boot.dex" true).1 = none :=
  ⟨by decide,
    (getOatDexFile_found_iff_key (OatFile.mk "x.oat" (MemMap.mk 4096 8192)
        [("core.dex", OatDexFile.mk "core.dex" 7 4160 4200),
          ("ext.dex", OatDexFile.mk "ext.dex" 9 5000 5040)]) "core.dex" true).1 (by decide),
    (getOatDexFile_found_iff_key (OatFile.mk "x.oat" (MemMap.mk 4096 8192)
        [("core.dex", OatDexFile.mk "core.dex" 7 4160 4200),
          ("ext.dex", OatDexFile.mk "ext.dex" 9 5000 5040)]) "boot.dex" true).2.1
      (by decide)⟩

/-! ## The mapped extent -/

/-- C5.  For every container, `GetSize` is `GetLimit` minus `GetBase` as a
`size_t` (the difference modulo `2 ^ w`); whenever base is at most limit, and
limit is an address, it is exactly the number limit minus base, the byte
length of the extent from base to limit. -/
theorem getSize_eq_limit_sub_base (w : Nat) (f : OatFile) :
    (f.GetSize w : Int) = ((f.GetLimit : Int) - (f.GetBase : Int)) % (2 : Int) ^ w ∧
    (f.GetBase ≤ f.GetLimit → f.GetLimit < 2 ^ w →
      (f.GetSize w : Int) = (f.GetLimit : Int) - (f.GetBase : Int) ∧
      f.GetSize w = f.GetLimit - f.GetBase ∧
      f.GetBase + f.GetSize w = f.GetLimit) := by
  refine ⟨getSize_cast w f, fun hle hlim => ?_⟩
  have h := getSize_of_le w f hle hlim
  omega

/-- C5, witness: the extent from `0x1000` to `0x3000` has size `0x2000`. -/
theorem getSize_eq_limit_sub_base_witness :
    (4096 ≤ 12288 ∧ 12288 < 2 ^ 32) ∧
    (OatFile.mk "x.oat" (MemMap.mk 4096 12288) []).GetSize 32 = 12288 - 4096 :=
  ⟨by decide,
    ((getSize_eq_limit_sub_base 32 (OatFile.mk "x.oat" (MemMap.mk 4096 12288) [])).2
      (by decide) (by decide)).2.1⟩

/-! ## Field getters, immutability and totality -/

/-- C6.  For the view constructed from `(base, code_offset,
frame_size_in_bytes, core_spill_mask, fp_spill_mask, mapping_table_offset,
vmap_table_offset, invoke_stub_offset)` the seven field getters return exactly
the corresponding constructor argument, and after a call of any of the eleven
accessors the view (its base and its seven fields) is the same as before. -/
theorem constructed_view_getters_and_immutable (w base code_offset frame_size_in_bytes
    core_spill_mask fp_spill_mask mapping_table_offset vmap_table_offset
    invoke_stub_offset : Nat) :
    ((OatMethod.OatMethod base code_offset frame_size_in_bytes core_spill_mask
        fp_spill_mask mapping_table_offset vmap_table_offset
        invoke_stub_offset).GetCodeOffset = code_offset ∧
      (OatMethod.OatMethod base code_offset frame_size_in_bytes core_spill_mask
        fp_spill_mask mapping_table_offset vmap_table_offset
        invoke_stub_offset).GetFrameSizeInBytes = frame_size_in_bytes ∧
      (OatMethod.OatMethod base code_offset frame_size_in_bytes core_spill_mask
        fp_spill_mask mapping_table_offset vmap_table_offset
        invoke_stub_offset).GetCoreSpillMask = core_spill_mask ∧
      (OatMethod.OatMethod base code_offset frame_size_in_bytes core_spill_mask
        fp_spill_mask mapping_table_offset vmap_table_offset
        invoke_stub_offset).GetFpSpillMask = fp_spill_mask ∧
      (OatMethod.OatMethod base code_offset frame_size_in_bytes core_spill_mask
        fp_spill_mask mapping_table_offset vmap_table_offset
        invoke_stub_offset).GetMappingTableOffset = mapping_table_offset ∧
      (OatMethod.OatMethod base code_offset frame_size_in_bytes core_spill_mask
        fp_spill_mask mapping_table_offset vmap_table_offset
        invoke_stub_offset).GetVmapTableOffset = vmap_table_offset ∧
      (OatMethod.OatMethod base code_offset frame_size_in_bytes core_spill_mask
        fp_spill_mask mapping_table_offset vmap_table_offset
        invoke_stub_offset).GetInvokeStubOffset = invoke_stub_offset) ∧
    ∀ a : Accessor,
      (a.call w (OatMethod.OatMethod base code_offset frame_size_in_bytes core_spill_mask
        fp_spill_mask mapping_table_offset vmap_table_offset invoke_stub_offset)).2 =
      OatMethod.mk base code_offset frame_size_in_bytes core_spill_mask fp_spill_mask
        mapping_table_offset vmap_table_offset invoke_stub_offset := by
  refine ⟨⟨rfl, rfl, rfl, rfl, rfl, rfl, rfl⟩, fun a => ?_⟩
  cases a <;> rfl

/-- C7.  Every accessor of a method view returns: for every well-typed view
and each of the eleven accessors the call yields a value of the accessor's
return type and the unchanged view, there being no other outcome; and a
pointer accessor whose offset field is 0 yields the null pointer. -/
theorem accessor_total (w : Nat) (a : Accessor) (m : OatMethod)
    (hty : OatMethod.WellTyped w m) :
    ∃ v, a.call w m = (v, m) ∧ v < a.range w ∧
      (a.offsetOf m = some 0 → v = NULL) := by
  obtain ⟨_, h1, h2, h3, h4, h5, h6, h7⟩ := hty
  cases a
  case GetCodeOffset => exact ⟨_, rfl, h1, fun h => by simp [Accessor.offsetOf] at h⟩
  case GetFrameSizeInBytes => exact ⟨_, rfl, h2, fun h => by simp [Accessor.offsetOf] at h⟩
  case GetCoreSpillMask => exact ⟨_, rfl, h3, fun h => by simp [Accessor.offsetOf] at h⟩
  case GetFpSpillMask => exact ⟨_, rfl, h4, fun h => by simp [Accessor.offsetOf] at h⟩
  case GetMappingTableOffset =>
    exact ⟨_, rfl, h5, fun h => by simp [Accessor.offsetOf] at h⟩
  case GetVmapTableOffset => exact ⟨_, rfl, h6, fun h => by simp [Accessor.offsetOf] at h⟩
  case GetInvokeStubOffset => exact ⟨_, rfl, h7, fun h => by simp [Accessor.offsetOf] at h⟩
  case GetCode =>
    refine ⟨_, rfl, getOatPointer_lt w m _, fun h => ?_⟩
    have h0 : m.code_offset_ = 0 := by simpa [Accessor.offsetOf] using h
    simp [OatMethod.GetCode, h0, getOatPointer_zero]
  case GetMappingTable =>
    refine ⟨_, rfl, getOatPointer_lt w m _, fun h => ?_⟩
    have h0 : m.mapping_table_offset_ = 0 := by simpa [Accessor.offsetOf] using h
    simp [OatMethod.GetMappingTable, h0, getOatPointer_zero]
  case GetVmapTable =>
    refine ⟨_, rfl, getOatPointer_lt w m _, fun h => ?_⟩
    have h0 : m.vmap_table_offset_ = 0 := by simpa [Accessor.offsetOf] using h
    simp [OatMethod.GetVmapTable, h0, getOatPointer_zero]
  case GetInvokeStub =>
    refine ⟨_, rfl, getOatPointer_lt w m _, fun h => ?_⟩
    have h0 : m.invoke_stub_offset_ = 0 := by simpa [Accessor.offsetOf] using h
    simp [OatMethod.GetInvokeStub, h0, getOatPointer_zero]

/-- C7, witness: `GetVmapTable` on a 32-bit view without a vmap table. -/
theorem accessor_total_witness :
    OatMethod.WellTyped 32 (OatMethod.mk 4096 64 16 3 5 128 0 256) ∧
    ∃ v, Accessor.GetVmapTable.call 32 (OatMethod.mk 4096 64 16 3 5 128 0 256) =
        (v, OatMethod.mk 4096 64 16 3 5 128 0 256) ∧
      v < Accessor.GetVmapTable.range 32 ∧
      (Accessor.GetVmapTable.offsetOf (OatMethod.mk 4096 64 16 3 5 128 0 256) = some 0 →
        v = NULL) :=
  ⟨by decide,
    accessor_total 32 Accessor.GetVmapTable (OatMethod.mk 4096 64 16 3 5 128 0 256)
      (by decide)⟩

/-! ## Bounds -/

/-- C8, counterexample.  A container mapped at `[0x1000, 0x2000)` has size
`0x1000`; the well-formed view on its base with code offset `0x5000`, which is not
below the size, gets from `GetCode` the non-null address `0x6000`, outside
the extent. -/
theorem getCode_outside_extent :
    (OatMethod.mk 4096 20480 0 0 0 0 0 0).base_ =
      (OatFile.mk "x.oat" (MemMap.mk 4096 8192) []).GetBase ∧
    (OatFile.mk "x.oat" (MemMap.mk 4096 8192) []).GetSize 32 = 4096 ∧
    (OatFile.mk "x.oat" (MemMap.mk 4096 8192) []).GetSize 32 ≤
      (OatMethod.mk 4096 20480 0 0 0 0 0 0).code_offset_ ∧
    (OatMethod.mk 4096 20480 0 0 0 0 0 0).GetCode 32 = 24576 ∧
    ¬ ((OatMethod.mk 4096 20480 0 0 0 0 0 0).GetCode 32 = NULL ∨
        ((OatFile.mk "x.oat" (MemMap.mk 4096 8192) []).GetBase ≤
            (OatMethod.mk 4096 20480 0 0 0 0 0 0).GetCode 32 ∧
          (OatMethod.mk 4096 20480 0 0 0 0 0 0).GetCode 32 <
            (OatFile.mk "x.oat" (MemMap.mk 4096 8192) []).GetLimit)) := by
  decide

/-- C8, amended.  The pointer accessors make no check against the mapped
length.  For a container whose extent satisfies base ≤ limit < `2 ^ w`
(`w ≥ 32`) and a well-typed view whose base is the container's base, an
accessor with a non-zero offset field returns an address inside
`[Base, Limit)` if and only if that offset is below `GetSize`. -/
theorem pointer_accessor_in_extent_iff (w : Nat) (f : OatFile) (m : OatMethod)
    (hw : 32 ≤ w) (hty : OatMethod.WellTyped w m) (hbase : m.base_ = f.GetBase)
    (hle : f.GetBase ≤ f.GetLimit) (hlim : f.GetLimit < 2 ^ w) :
    (m.code_offset_ ≠ 0 →
      ((f.GetBase ≤ m.GetCode w ∧ m.GetCode w < f.GetLimit) ↔
        m.code_offset_ < f.GetSize w)) ∧
    (m.mapping_table_offset_ ≠ 0 →
      ((f.GetBase ≤ m.GetMappingTable w ∧ m.GetMappingTable w < f.GetLimit) ↔
        m.mapping_table_offset_ < f.GetSize w)) ∧
    (m.vmap_table_offset_ ≠ 0 →
      ((f.GetBase ≤ m.GetVmapTable w ∧ m.GetVmapTable w < f.GetLimit) ↔
        m.vmap_table_offset_ < f.GetSize w)) ∧
    (m.invoke_stub_offset_ ≠ 0 →
      ((f.GetBase ≤ m.GetInvokeStub w ∧ m.GetInvokeStub w < f.GetLimit) ↔
        m.invoke_stub_offset_ < f.GetSize w)) := by
  obtain ⟨_, h1, _, _, _, h5, h6, h7⟩ := hty
  have h32 := two_pow_32_le hw
  exact ⟨fun h => getOatPointer_in_extent_iff w f m hbase hle hlim h (by omega),
    fun h => getOatPointer_in_extent_iff w f m hbase hle hlim h (by omega),
    fun h => getOatPointer_in_extent_iff w f m hbase hle hlim h (by omega),
    fun h => getOatPointer_in_extent_iff w f m hbase hle hlim h (by omega)⟩

/-- C8, witness: in the container mapped at `[0x1000, 0x2000)` the code offset
`0x5000` is not below the size. -/
theorem pointer_accessor_in_extent_iff_witness :
    (32 ≤ 32 ∧ OatMethod.WellTyped 32 (OatMethod.mk 4096 20480 0 0 0 0 0 0) ∧
      (4096 : Nat) ≤ 8192 ∧ 8192 < 2 ^ 32 ∧ 20480 ≠ 0) ∧
    (((OatFile.mk "x.oat" (MemMap.mk 4096 8192) []).GetBase ≤
          (OatMethod.mk 4096 20480 0 0 0 0 0 0).GetCode 32 ∧
        (OatMethod.mk 4096 20480 0 0 0 0 0 0).GetCode 32 <
          (OatFile.mk "x.oat" (MemMap.mk 4096 8192) []).GetLimit) ↔
      20480 < (OatFile.mk "x.oat" (MemMap.mk 4096 8192) []).GetSize 32) :=
  ⟨by decide,
    (pointer_accessor_in_extent_iff 32 (OatFile.mk "x.oat" (MemMap.mk 4096 8192) [])
      (OatMethod.mk 4096 20480 0 0 0 0 0 0) (by decide) (by decide) rfl
      (by decide) (by decide)).1 (by decide)⟩

/-! ## Dependence and invertibility -/

/-- C9.  Each pointer accessor depends only on the base and its own offset
field: two views with equal base and equal code offset have the same `GetCode`
result, and likewise for `GetMappingTable`, `GetVmapTable` and `GetInvokeStub`
with their offset fields; when the offset field is 0 in both views the results
agree whatever the two bases are. -/
theorem pointer_accessor_depends_on_base_and_offset (w : Nat) (m₁ m₂ : OatMethod) :
    ((m₁.base_ = m₂.base_ → m₁.code_offset_ = m₂.code_offset_ →
        m₁.GetCode w = m₂.GetCode w) ∧
      (m₁.base_ = m₂.base_ → m₁.mapping_table_offset_ = m₂.mapping_table_offset_ →
        m₁.GetMappingTable w = m₂.GetMappingTable w) ∧
      (m₁.base_ = m₂.base_ → m₁.vmap_table_offset_ = m₂.vmap_table_offset_ →
        m₁.GetVmapTable w = m₂.GetVmapTable w) ∧
      (m₁.base_ = m₂.base_ → m₁.invoke_stub_offset_ = m₂.invoke_stub_offset_ →
        m₁.GetInvokeStub w = m₂.GetInvokeStub w)) ∧
    ((m₁.code_offset_ = 0 → m₂.code_offset_ = 0 → m₁.GetCode w = m₂.GetCode w) ∧
      (m₁.mapping_table_offset_ = 0 → m₂.mapping_table_offset_ = 0 →
        m₁.GetMappingTable w = m₂.GetMappingTable w) ∧
      (m₁.vmap_table_offset_ = 0 → m₂.vmap_table_offset_ = 0 →
        m₁.GetVmapTable w = m₂.GetVmapTable w) ∧
      (m₁.invoke_stub_offset_ = 0 → m₂.invoke_stub_offset_ = 0 →
        m₁.GetInvokeStub w = m₂.GetInvokeStub w)) := by
  have key : ∀ k₁ k₂ : Nat, m₁.base_ = m₂.base_ → k₁ = k₂ →
      m₁.GetOatPointer w k₁ = m₂.GetOatPointer w k₂ := by
    intro k₁ k₂ hb hk
    unfold OatMethod.GetOatPointer
    rw [hb, hk]
  have key0 : ∀ k₁ k₂ : Nat, k₁ = 0 → k₂ = 0 →
      m₁.GetOatPointer w k₁ = m₂.GetOatPointer w k₂ := by
    intro k₁ k₂ h₁ h₂
    rw [h₁, h₂, getOatPointer_zero, getOatPointer_zero]
  exact ⟨⟨key _ _, key _ _, key _ _, key _ _⟩, key0 _ _, key0 _ _, key0 _ _, key0 _ _⟩

/-- C9, witness: two views on base `0x1000` with code offset `0x40` that differ
in the six other fields, and two views without invoke stub on different
bases. -/
theorem pointer_accessor_depends_on_base_and_offset_witness :
    ((4096 : Nat) = 4096 ∧ (64 : Nat) = 64 ∧ (0 : Nat) = 0) ∧
    (OatMethod.mk 4096 64 16 3 5 128 0 0).GetCode 32 =
      (OatMethod.mk 4096 64 48 1 2 512 640 768).GetCode 32 ∧
    (OatMethod.mk 4096 64 16 3 5 128 0 0).GetInvokeStub 32 =
      (OatMethod.mk 8192 64 48 1 2 512 640 0).GetInvokeStub 32 :=
  ⟨by decide,
    (pointer_accessor_depends_on_base_and_offset 32 (OatMethod.mk 4096 64 16 3 5 128 0 0)
      (OatMethod.mk 4096 64 48 1 2 512 640 768)).1.1 rfl rfl,
    (pointer_accessor_depends_on_base_and_offset 32 (OatMethod.mk 4096 64 16 3 5 128 0 0)
      (OatMethod.mk 8192 64 48 1 2 512 640 0)).2.2.2.2 rfl rfl⟩

/-- C10.  For a view with base `B` and pointer width `w ≥ 32`: for every 32-bit
offset `K ≠ 0` the address returned by `GetOatPointer` minus `B` is `K` modulo
`2 ^ w`; two distinct non-zero 32-bit offsets never yield the same address;
and when `B` is not null no 32-bit offset yields the address `B`. -/
theorem getOatPointer_invertible (w : Nat) (m : OatMethod) (hw : 32 ≤ w) :
    (∀ K : Nat, K < 2 ^ 32 → K ≠ 0 →
      ((m.GetOatPointer w K : Int) - (m.base_ : Int)) % (2 : Int) ^ w = (K : Int)) ∧
    (∀ K₁ K₂ : Nat, K₁ < 2 ^ 32 → K₂ < 2 ^ 32 → K₁ ≠ 0 → K₂ ≠ 0 → K₁ ≠ K₂ →
      m.GetOatPointer w K₁ ≠ m.GetOatPointer w K₂) ∧
    (m.base_ ≠ NULL → ∀ K : Nat, K < 2 ^ 32 → m.GetOatPointer w K ≠ m.base_) := by
  have h32 := two_pow_32_le hw
  refine ⟨fun K hK hK0 => getOatPointer_sub_base w m hK0 (by omega),
    fun K₁ K₂ h₁ h₂ h₁0 h₂0 hne heq =>
      hne (getOatPointer_injective w m h₁0 h₂0 (by omega) (by omega) heq),
    fun hb K hK => getOatPointer_ne_base w m hb (by omega)⟩

/-- C10, witness: on a 64-bit target with base `0x7f0000001000`, the offsets
`0x40` and `0x80`. -/
theorem getOatPointer_invertible_witness :
    (32 ≤ 64 ∧ 64 < 2 ^ 32 ∧ 128 < 2 ^ 32 ∧ (64 : Nat) ≠ 0 ∧ (128 : Nat) ≠ 0 ∧
      (64 : Nat) ≠ 128 ∧ (139637976731648 : Nat) ≠ NULL) ∧
    (((OatMethod.mk 139637976731648 64 16 0 0 128 0 0).GetOatPointer 64 64 : Int) -
        (139637976731648 : Nat)) % (2 : Int) ^ 64 = (64 : Nat) ∧
    (OatMethod.mk 139637976731648 64 16 0 0 128 0 0).GetOatPointer 64 64 ≠
      (OatMethod.mk 139637976731648 64 16 0 0 128 0 0).GetOatPointer 64 128 ∧
    (OatMethod.mk 139637976731648 64 16 0 0 128 0 0).GetOatPointer 64 64 ≠
      (OatMethod.mk 139637976731648 64 16 0 0 128 0 0).base_ :=
  ⟨by decide,
    (getOatPointer_invertible 64 (OatMethod.mk 139637976731648 64 16 0 0 128 0 0)
      (by decide)).1 64 (by decide) (by decide),
    (getOatPointer_invertible 64 (OatMethod.mk 139637976731648 64 16 0 0 128 0 0)
      (by decide)).2.1 64 128 (by decide) (by decide) (by decide) (by decide) (by decide),
    (getOatPointer_invertible 64 (OatMethod.mk 139637976731648 64 16 0 0 128 0 0)
      (by decide)).2.2 (by decide) 64 (by decide)⟩

end art
